import Mathlib

/-!
Shallow embedding of `src/orchestrator.py` (Idem-AI/deploy-orchestrator),
agent/job coordination layer ("Cas B" endpoints).

The persisted state consists of two JSON documents (`agents.json`,
`jobs.json`) and one JSON file per environment bundle under `envs/`.
`OrchState` models the parsed contents of this storage.  Each HTTP handler
becomes a pure function from the current state (plus the request
parameters, the clock value, and the freshly generated uuid where the code
calls `uuid.uuid4()`) to either an `HErr` — a raised `HTTPException`, which
aborts the request before any further write, so an error result leaves the
on-disk state exactly as it was — or the new state together with the
response payload.
-/

/-- Arbitrary JSON value, for env bundle payloads and `meta` fields. -/
inductive JsonVal where
  | null
  | bool (b : Bool)
  | num (n : Int)
  | str (s : String)
  | arr (xs : List JsonVal)
  | obj (fields : List (String × JsonVal))

/-- A raised `HTTPException`: status code and detail string. -/
structure HErr where
  status_code : Nat
  detail : String
deriving DecidableEq, Repr

/-- One record of `agents.json` (created by the `/register` handler). -/
structure Agent where
  agent_id : String
  token : String
  hostname : String
  ip : String
  ssh_pubkey : String
  meta : List (String × JsonVal)
  created : Nat
  last_seen : Nat

/-- One record of `jobs.json` (created by the `/create_job` handler).
`output` is absent until a report sets it, hence `Option`. -/
structure Job where
  job_id : String
  agent_id : String
  args : List String
  is_spa : Bool
  env_token : Option String
  status : String
  output : Option String
  created : Nat
  updated : Nat
deriving DecidableEq, Repr

/-- A Python `dict` with string keys, as an association list in insertion
order (keys are unique in any state the program produces). -/
def Dict (α : Type) : Type := List (String × α)

/-- Key lookup, first match (Python `d[k]` / `k in d`). -/
def dlookup {α : Type} : List (String × α) → String → Option α
  | [], _ => none
  | p :: rest, key => if p.1 = key then some p.2 else dlookup rest key

/-- In-place update of the value at an existing key, keeping its position
(Python `d[k]["field"] = v` on a fetched record). -/
def dictModify {α : Type} : List (String × α) → String → (α → α) → List (String × α)
  | [], _, _ => []
  | p :: rest, k, f => (if p.1 = k then (p.1, f p.2) else p) :: dictModify rest k f

/-- Python `d[k] = v`: overwrite in place if the key exists, else append. -/
def dictSet {α : Type} (m : List (String × α)) (k : String) (v : α) :
    List (String × α) :=
  if (dlookup m k).isSome then dictModify m k (fun _ => v) else m ++ [(k, v)]

/-- Parsed contents of the orchestrator's storage: `agents.json`,
`jobs.json`, and the `envs/` directory (bundle token ↦ payload). -/
structure OrchState where
  agents : List (String × Agent)
  jobs : List (String × Job)
  envs : List (String × JsonVal)

/-- `require_admin`: if `ADMIN_API_TOKEN` is configured, the header must be
present and equal to it (`orchestrator.py` lines 70-73). -/
def require_admin (admin_api_token : Option String) (token_header : Option String) :
    Except HErr Unit :=
  match admin_api_token with
  | none => .ok ()
  | some cfg =>
    match token_header with
    | none => .error ⟨403, "invalid admin token"⟩
    | some h => if h = cfg then .ok () else .error ⟨403, "invalid admin token"⟩

/-- The token-to-agent scan shared by `poll_jobs`, `report` and
`download_env`: first agent whose `token` field equals the header. -/
def findAgentByToken : List (String × Agent) → String → Option String
  | [], _ => none
  | (aid, a) :: rest, tok =>
    if a.token = tok then some aid else findAgentByToken rest tok

/-- The record `create_job` stores under the fresh `job_id`
(lines 244-253). -/
def createdJob (job_id agent_id : String) (args : List String) ( is_spa : Bool)
    (env_token : Option String) (now : Nat) : Job :=
  { job_id := job_id, agent_id := agent_id, args := args, is_spa := is_spa,
    env_token := env_token, status := "pending", output := none,
    created := now, updated := now }

/-- `create_job` (lines 223-255): admin-only; 404 when the payload's
`agent_id` is missing or unregistered (the check happens before any write,
so the failure leaves `jobs.json` untouched); otherwise appends a fresh
record with `status = "pending"` and both timestamps set to now. -/
def create_job (s : OrchState) (admin_api_token x_admin_token : Option String)
    (agent_id : Option String) (args : List String) ( is_spa : Bool)
    (env_token : Option String) (job_id : String) (now : Nat) :
    Except HErr (OrchState × String) :=
  match require_admin admin_api_token x_admin_token with
  | .error e => .error e
  | .ok () =>
    match agent_id with
    | none => .error ⟨404, "agent not found"⟩
    | some aid =>
      if (dlookup s.agents aid).isSome then
        let job := createdJob job_id aid args is_spa env_token now
        .ok ({ s with jobs := dictSet s.jobs job_id job }, job_id)
      else .error ⟨404, "agent not found"⟩

/-- The record mutation `agents[agent_id]["last_seen"] = int(time.time())`
performed by `poll_jobs` (line 276). -/
def touchSeen (now : Nat) (a : Agent) : Agent := { a with last_seen := now }

/-- The record mutation performed by `report` (lines 308-310): overwrite
`status`, `output`, `updated` on the fetched job. -/
def reportUpdate (st out : String) (now : Nat) (j : Job) : Job :=
  { j with status := st, output := some out, updated := now }

/-- The filter predicate of `poll_jobs` (line 281): the caller's jobs that
are still `"pending"`. -/
def isPendingFor (aid : String) (p : String × Job) : Bool :=
  p.2.agent_id == aid && p.2.status == "pending"

/-- `poll_jobs` (lines 263-283): authenticates the bearer token, updates
the caller's `last_seen` in `agents.json`, then returns the jobs whose
`agent_id` matches the caller and whose `status` is `"pending"`. -/
def poll_jobs (s : OrchState) (x_agent_token : Option String) (now : Nat) :
    Except HErr (OrchState × List Job) :=
  match x_agent_token with
  | none => .error ⟨403, "missing agent token"⟩
  | some tok =>
    if tok = "" then .error ⟨403, "missing agent token"⟩
    else
      match findAgentByToken s.agents tok with
      | none => .error ⟨403, "invalid agent token"⟩
      | some agent_id =>
        let s' : OrchState :=
          { s with agents := dictModify s.agents agent_id (touchSeen now) }
        let pending := (s'.jobs.filter (isPendingFor agent_id)).map Prod.snd
        .ok (s', pending)

/-- `report` (lines 290-312): authenticates the bearer token, 404 when the
job id is unknown, 403 when the job's `agent_id` is not the caller;
otherwise overwrites `status`, `output`, `updated` on the record (fetched
from the `jobs` dict and mutated in place) and writes `jobs.json` back. -/
def report (s : OrchState) (x_agent_token : Option String)
    (job_id status output : String) (now : Nat) : Except HErr OrchState :=
  match x_agent_token with
  | none => .error ⟨403, "missing agent token"⟩
  | some tok =>
    if tok = "" then .error ⟨403, "missing agent token"⟩
    else
      match findAgentByToken s.agents tok with
      | none => .error ⟨403, "invalid agent token"⟩
      | some agent_id =>
        match dlookup s.jobs job_id with
        | none => .error ⟨404, "job not found"⟩
        | some job =>
          if job.agent_id ≠ agent_id then
            .error ⟨403, "job does not belong to this agent"⟩
          else
            .ok { s with jobs := dictModify s.jobs job_id (reportUpdate status output now) }

/-- Result of uploading a multipart `env_file`: either the bytes parse as
JSON or they do not (`json.loads` in lines 324-328). -/
inductive EnvFile where
  | parses (data : JsonVal)
  | invalid

/-- `upload_env_file` (lines 316-342): admin-only; takes the multipart file
if present (400 when it is not valid JSON), else the raw JSON body (400
when neither is given); stores the payload under a fresh `env_` token
(the `uuid4().hex` part is the `fresh` argument). -/
def upload_env_file (s : OrchState) (admin_api_token x_admin_token : Option String)
    (env_file : Option EnvFile) (env_json : Option JsonVal) (fresh : String) :
    Except HErr (OrchState × String) :=
  match require_admin admin_api_token x_admin_token with
  | .error e => .error e
  | .ok () =>
    match env_file with
    | some .invalid => .error ⟨400, "uploaded file not valid JSON"⟩
    | some (.parses data) =>
      let env_token := "env_" ++ fresh
      .ok ({ s with envs := dictSet s.envs env_token data }, env_token)
    | none =>
      match env_json with
      | none => .error ⟨400, "no env provided"⟩
      | some data =>
        let env_token := "env_" ++ fresh
        .ok ({ s with envs := dictSet s.envs env_token data }, env_token)

/-- The check of `download_env` (line 365): this job belongs to the agent,
is still `"pending"`, and references the requested `env_token`. -/
def referencesEnv (aid env_token : String) (p : String × Job) : Bool :=
  p.2.agent_id == aid && p.2.status == "pending" && p.2.env_token == some env_token

/-- `download_env` (lines 344-376): authenticates the bearer token, 403
unless some job of this agent is `"pending"` and references `env_token`,
then 404 unless the bundle file exists, else returns its payload. -/
def download_env (s : OrchState) (env_token : String)
    (x_agent_token : Option String) : Except HErr JsonVal :=
  match x_agent_token with
  | none => .error ⟨403, "missing agent token"⟩
  | some tok =>
    if tok = "" then .error ⟨403, "missing agent token"⟩
    else
      match findAgentByToken s.agents tok with
      | none => .error ⟨403, "invalid agent token"⟩
      | some agent_id =>
        if s.jobs.any (referencesEnv agent_id env_token) then
          match dlookup s.envs env_token with
          | none => .error ⟨404, "env token not found"⟩
          | some data => .ok data
        else .error ⟨403, "no job for this agent references this env token"⟩

/-! ### Dictionary lemmas -/

theorem dlookup_dictModify_self {α : Type} (m : List (String × α)) (k : String)
    (f : α → α) : dlookup (dictModify m k f) k = (dlookup m k).map f := by
  induction m with
  | nil => rfl
  | cons p rest ih =>
    by_cases h : p.1 = k
    · simp [dictModify, dlookup, h]
    · simp [dictModify, dlookup, h, ih]

theorem dlookup_dictModify_ne {α : Type} (m : List (String × α)) (k k' : String)
    (f : α → α) (h : k' ≠ k) : dlookup (dictModify m k f) k' = dlookup m k' := by
  induction m with
  | nil => rfl
  | cons p rest ih =>
    by_cases hp : p.1 = k
    · simp [dictModify, dlookup, hp, Ne.symm h, ih]
    · simp [dictModify, dlookup, hp, ih]

theorem mem_dictModify {α : Type} {m : List (String × α)} {k : String}
    {f : α → α} {p : String × α} (h : p ∈ dictModify m k f) :
    ∃ q ∈ m, p = if q.1 = k then (q.1, f q.2) else q := by
  induction m with
  | nil => simp [dictModify] at h
  | cons q rest ih =>
    simp only [dictModify, List.mem_cons] at h
    rcases h with h | h
    · exact ⟨q, List.mem_cons_self q rest, h⟩
    · obtain ⟨q', hq', hp⟩ := ih h
      exact ⟨q', List.mem_cons_of_mem q hq', hp⟩

theorem dlookup_append_single {α : Type} (m : List (String × α)) (k k' : String)
    (v : α) (hm : dlookup m k' = none) :
    dlookup (m ++ [(k, v)]) k' = if k = k' then some v else none := by
  induction m with
  | nil => simp [dlookup]
  | cons p rest ih =>
    simp only [dlookup] at hm
    by_cases hp : p.1 = k'
    · simp [hp] at hm
    · rw [if_neg hp] at hm
      simp only [List.cons_append, dlookup, hp, if_false]
      exact ih hm

theorem dlookup_dictSet_self {α : Type} (m : List (String × α)) (k : String)
    (v : α) : dlookup (dictSet m k v) k = some v := by
  unfold dictSet
  by_cases h : (dlookup m k).isSome
  · rw [if_pos h, dlookup_dictModify_self]
    obtain ⟨x, hx⟩ := Option.isSome_iff_exists.mp h
    rw [hx]; rfl
  · rw [if_neg h]
    rw [dlookup_append_single m k k v (Option.not_isSome_iff_eq_none.mp h)]
    simp

theorem dlookup_append_pair_ne {α : Type} (m : List (String × α)) (k k' : String)
    (v : α) (h : k' ≠ k) : dlookup (m ++ [(k, v)]) k' = dlookup m k' := by
  induction m with
  | nil => simp [dlookup, Ne.symm h]
  | cons p rest ih =>
    by_cases hp : p.1 = k'
    · simp [dlookup, hp]
    · simp only [List.cons_append, dlookup, hp, if_false]
      exact ih

theorem dlookup_dictSet_ne {α : Type} (m : List (String × α)) (k k' : String)
    (v : α) (h : k' ≠ k) : dlookup (dictSet m k v) k' = dlookup m k' := by
  unfold dictSet
  by_cases hs : (dlookup m k).isSome
  · rw [if_pos hs, dlookup_dictModify_ne _ _ _ _ h]
  · rw [if_neg hs, dlookup_append_pair_ne _ _ _ _ h]

/-! ### Inversion lemmas for the handlers -/

/-- A successful `report` call found the caller via its token, found an
owned job under `job_id`, and its only effect is the in-place overwrite of
that job's `status`, `output`, `updated` in `jobs.json`. -/
theorem report_ok_inv {s s' : OrchState} {tok job_id st out : String} {now : Nat}
    (h : report s (some tok) job_id st out now = .ok s') :
    ∃ aid job, findAgentByToken s.agents tok = some aid ∧
      dlookup s.jobs job_id = some job ∧ job.agent_id = aid ∧
      s' = { s with jobs := dictModify s.jobs job_id (reportUpdate st out now) } := by
  simp only [report] at h
  by_cases htok : tok = ""
  · simp [htok] at h
  · rw [if_neg htok] at h
    cases hfind : findAgentByToken s.agents tok with
    | none => rw [hfind] at h; simp at h
    | some aid =>
      rw [hfind] at h
      cases hjob : dlookup s.jobs job_id with
      | none => rw [hjob] at h; simp at h
      | some job =>
        rw [hjob] at h
        by_cases hown : job.agent_id = aid
        · simp only [hown, ne_eq, not_true_eq_false, if_false, ite_false,
            Except.ok.injEq] at h
          exact ⟨aid, job, rfl, rfl, hown, h.symm⟩
        · simp [hown] at h

/-- A successful `poll_jobs` call found the caller via its token, its only
state effect is the `last_seen` touch on that agent's record, and its
result is the pending-jobs filter of `jobs.json` for that agent. -/
theorem poll_jobs_ok_inv {s s' : OrchState} {tok : String} {now : Nat}
    {res : List Job} (h : poll_jobs s (some tok) now = .ok (s', res)) :
    ∃ aid, findAgentByToken s.agents tok = some aid ∧
      s' = { s with agents := dictModify s.agents aid (touchSeen now) } ∧
      res = (s.jobs.filter (isPendingFor aid)).map Prod.snd := by
  simp only [poll_jobs] at h
  by_cases htok : tok = ""
  · simp [htok] at h
  · rw [if_neg htok] at h
    cases hfind : findAgentByToken s.agents tok with
    | none => rw [hfind] at h; simp at h
    | some aid =>
      rw [hfind] at h
      simp only [Except.ok.injEq, Prod.mk.injEq] at h
      exact ⟨aid, rfl, h.1.symm, h.2.symm⟩

/-! ### Reachable-state invariant and concrete fixtures -/

/-- In every state the program writes, a job record's `job_id` field equals
its key in `jobs.json`: `create_job` stores the record under the same
`job_id` it writes into the record, and `report` never changes the field. -/
def jobsWF (jobs : List (String × Job)) : Prop := ∀ p ∈ jobs, p.2.job_id = p.1

/-- Fixture: a registered agent with bearer token `"t1"`. -/
def agentA : Agent :=
  { agent_id := "a1", token := "t1", hostname := "h1", ip := "", ssh_pubkey := "",
    meta := [], created := 0, last_seen := 0 }

/-- Fixture: a second registered agent with bearer token `"t2"`. -/
def agentB : Agent :=
  { agent_id := "a2", token := "t2", hostname := "h2", ip := "", ssh_pubkey := "",
    meta := [], created := 0, last_seen := 0 }

/-- Fixture: a pending job owned by `agentA`. -/
def jobOne : Job :=
  { job_id := "j1", agent_id := "a1", args := ["https://x.git", "d.com"],
    is_spa := false, env_token := none, status := "pending", output := none,
    created := 0, updated := 0 }

/-- Fixture: a second pending job owned by `agentA`. -/
def jobTwo : Job :=
  { job_id := "j2", agent_id := "a1", args := [], is_spa := true,
    env_token := none, status := "pending", output := none,
    created := 0, updated := 0 }

/-- Fixture: a pending job owned by `agentB`. -/
def jobThree : Job :=
  { job_id := "j3", agent_id := "a2", args := [], is_spa := false,
    env_token := none, status := "pending", output := none,
    created := 0, updated := 0 }

/-! ### C1 -/

/-- C1, counterexample: the claim quantifies over every status string, but
`report` trusts the agent-supplied status verbatim.  Reporting `"pending"`
on job `"j1"` succeeds, and the very next `poll_jobs` by the owning agent
still returns `"j1"`. -/
theorem C1_report_any_status_counterexample :
    ((report ⟨[("a1", agentA)], [("j1", jobOne)], []⟩
        (some "t1") "j1" "pending" "ok" 5).toOption.map
      (fun s1 => (poll_jobs s1 (some "t1") 6).toOption.map
        (fun r => r.2.map Job.job_id))) = some (some ["j1"]) := rfl

/-- C1, amended: after `report(job_id, ...)` succeeds with any status
string other than `"pending"`, a subsequent `poll_jobs` (by the owning
agent or any other caller), with no intervening state change, returns a
job list that does not include that `job_id`. -/
theorem C1_reported_job_not_repolled (s s1 s2 : OrchState)
    (tok tok2 job_id st out : String) (now now2 : Nat) (res : List Job)
    (hwf : jobsWF s.jobs) (hst : st ≠ "pending")
    (hrep : report s (some tok) job_id st out now = .ok s1)
    (hpoll : poll_jobs s1 (some tok2) now2 = .ok (s2, res)) :
    ∀ j ∈ res, j.job_id ≠ job_id := by
  obtain ⟨aid, job, hfind, hjob, hown, rfl⟩ := report_ok_inv hrep
  obtain ⟨aid2, hfind2, hs2, hres⟩ := poll_jobs_ok_inv hpoll
  intro j hj hjid
  subst hres
  simp only [List.mem_map, List.mem_filter] at hj
  obtain ⟨p, ⟨hpmem, hpred⟩, rfl⟩ := hj
  obtain ⟨q, hq, hpq⟩ := mem_dictModify hpmem
  by_cases hqk : q.1 = job_id
  · rw [if_pos hqk] at hpq
    rw [hpq] at hpred
    simp only [isPendingFor, reportUpdate, Bool.and_eq_true, beq_iff_eq] at hpred
    exact hst hpred.2
  · rw [if_neg hqk] at hpq
    rw [hpq] at hjid
    exact hqk ((hwf q hq).symm.trans hjid)

/-- C1, witness: in a two-job state, reporting `"j1"` as `"done"` succeeds
and the next poll returns only `"j2"`, whose id differs from `"j1"`. -/
theorem C1_reported_job_not_repolled_witness : jobTwo.job_id ≠ "j1" := by
  refine C1_reported_job_not_repolled
    ⟨[("a1", agentA)], [("j1", jobOne), ("j2", jobTwo)], []⟩
    ⟨[("a1", agentA)], [("j1", reportUpdate "done" "ok" 5 jobOne), ("j2", jobTwo)], []⟩
    ⟨[("a1", touchSeen 6 agentA)],
      [("j1", reportUpdate "done" "ok" 5 jobOne), ("j2", jobTwo)], []⟩
    "t1" "t1" "j1" "done" "ok" 5 6 [jobTwo] ?_ (by decide) rfl rfl jobTwo ?_
  · intro p hp
    simp only [List.mem_cons, List.mem_singleton] at hp
    rcases hp with rfl | rfl | h
    · rfl
    · rfl
    · cases h
  · exact List.mem_singleton.mpr rfl

/-! ### C4 -/

/-- C4: a `report` call presenting a valid agent token whose identity
differs from the target job's `agent_id` fails with the 403 ownership
error.  The exception is raised before the `write_json(JOBS_FILE, ...)`
call, so the failed call produces no new state and the job's `status`,
`output` and `updated` keep their prior values. -/
theorem C4_report_ownership_mismatch (s : OrchState)
    (tok aid job_id st out : String) (job : Job) (now : Nat)
    (htok : tok ≠ "")
    (hfind : findAgentByToken s.agents tok = some aid)
    (hjob : dlookup s.jobs job_id = some job)
    (hown : job.agent_id ≠ aid) :
    report s (some tok) job_id st out now
      = .error ⟨403, "job does not belong to this agent"⟩ := by
  simp [report, htok, hfind, hjob, hown]

/-- C4, witness: agent `"a2"` reporting on `agentA`'s job `"j1"` fails
with the ownership error. -/
theorem C4_report_ownership_mismatch_witness :
    report ⟨[("a1", agentA), ("a2", agentB)], [("j1", jobOne)], []⟩
      (some "t2") "j1" "done" "ok" 7
      = .error ⟨403, "job does not belong to this agent"⟩ :=
  C4_report_ownership_mismatch ⟨[("a1", agentA), ("a2", agentB)], [("j1", jobOne)], []⟩
    "t2" "a2" "j1" "done" "ok" jobOne 7 (by decide) rfl rfl (by decide)

/-! ### C5 -/

/-- C5: every job returned by a successful `poll_jobs` has the caller's
identity in `agent_id`, so a job created for agent A never appears in a
poll authenticated as B for any B ≠ A. -/
theorem C5_poll_never_returns_other_agents_jobs (s s' : OrchState)
    (tok A B : String) (now : Nat) (res : List Job)
    (hfind : findAgentByToken s.agents tok = some B) (hAB : A ≠ B)
    (hpoll : poll_jobs s (some tok) now = .ok (s', res)) :
    ∀ j ∈ res, j.agent_id ≠ A := by
  obtain ⟨aid, hfind2, hs', hres⟩ := poll_jobs_ok_inv hpoll
  rw [hfind2] at hfind
  injection hfind with hBaid
  subst hBaid
  subst hres
  intro j hj hjA
  simp only [List.mem_map, List.mem_filter] at hj
  obtain ⟨p, ⟨hpmem, hpred⟩, rfl⟩ := hj
  simp only [isPendingFor, Bool.and_eq_true, beq_iff_eq] at hpred
  exact hAB (hjA.symm.trans hpred.1)

/-- C5, witness: polling as agent `"a2"` in a state that also holds a
pending job of agent `"a1"` returns only `"a2"`-owned jobs; the returned
`jobThree` does not belong to `"a1"`. -/
theorem C5_poll_never_returns_other_agents_jobs_witness :
    jobThree.agent_id ≠ "a1" := by
  refine C5_poll_never_returns_other_agents_jobs
    ⟨[("a1", agentA), ("a2", agentB)], [("j1", jobOne), ("j3", jobThree)], []⟩
    ⟨[("a1", agentA), ("a2", touchSeen 9 agentB)],
      [("j1", jobOne), ("j3", jobThree)], []⟩
    "t2" "a1" "a2" 9 [jobThree] rfl (by decide) rfl jobThree ?_
  exact List.mem_singleton.mpr rfl

/-! ### C9 -/

/-- C9: a successful `poll_jobs` writes only `agents.json`, and there only
the caller's record, and there only the `last_seen` field: `jobs.json` and
the env bundles are unchanged, every other agent's record is unchanged,
and the caller's record equals its old value with `last_seen` replaced. -/
theorem C9_poll_jobs_frame (s s' : OrchState) (tok : String) (now : Nat)
    (res : List Job) (hpoll : poll_jobs s (some tok) now = .ok (s', res)) :
    s'.jobs = s.jobs ∧ s'.envs = s.envs ∧
      ∃ aid, findAgentByToken s.agents tok = some aid ∧
        (∀ k, k ≠ aid → dlookup s'.agents k = dlookup s.agents k) ∧
        dlookup s'.agents aid = (dlookup s.agents aid).map (touchSeen now) := by
  obtain ⟨aid, hfind, hs', hres⟩ := poll_jobs_ok_inv hpoll
  subst hs'
  refine ⟨rfl, rfl, aid, hfind, ?_, ?_⟩
  · intro k hk
    exact dlookup_dictModify_ne _ _ _ _ hk
  · exact dlookup_dictModify_self _ _ _

/-- C9, witness: a concrete poll leaves `jobs.json` unchanged. -/
theorem C9_poll_jobs_frame_witness :
    (OrchState.mk [("a1", touchSeen 6 agentA)] [("j1", jobOne)] []).jobs
      = (OrchState.mk [("a1", agentA)] [("j1", jobOne)] []).jobs :=
  (C9_poll_jobs_frame ⟨[("a1", agentA)], [("j1", jobOne)], []⟩
    ⟨[("a1", touchSeen 6 agentA)], [("j1", jobOne)], []⟩ "t1" 6 [jobOne] rfl).1

/-! ### C6 -/

/-- C6: `create_job` (reached with a passing admin check) fails with 404
whenever the payload's `agent_id` is missing or not a registered agent —
the exception precedes the `write_json(JOBS_FILE, ...)` call, so the
failure has no side effect on the jobs document — and when the agent
exists the stored record has `status = "pending"` and both `created` and
`updated` set to the current time, with `agents.json` and the bundles
untouched. -/
theorem C6_create_job_spec (s : OrchState) (cfg hdr agent_id : Option String)
    (args : List String) (b : Bool) (etok : Option String)
    (job_id : String) (now : Nat)
    (hadmin : require_admin cfg hdr = .ok ()) :
    ((∀ aid, agent_id = some aid → dlookup s.agents aid = none) →
        create_job s cfg hdr agent_id args b etok job_id now
          = .error ⟨404, "agent not found"⟩) ∧
    (∀ aid, agent_id = some aid → (dlookup s.agents aid).isSome = true →
        ∃ s', create_job s cfg hdr agent_id args b etok job_id now = .ok (s', job_id) ∧
          dlookup s'.jobs job_id = some (createdJob job_id aid args b etok now) ∧
          s'.agents = s.agents ∧ s'.envs = s.envs) := by
  constructor
  · intro hmiss
    cases agent_id with
    | none => simp [create_job, hadmin]
    | some aid => simp [create_job, hadmin, hmiss aid rfl]
  · intro aid haid hsome
    subst haid
    refine ⟨{ s with jobs := dictSet s.jobs job_id (createdJob job_id aid args b etok now) },
      ?_, ?_, rfl, rfl⟩
    · simp [create_job, hadmin, hsome]
    · exact dlookup_dictSet_self _ _ _

/-- C6, witness: creating a job for the unregistered id `"zz"` fails with
404. -/
theorem C6_create_job_spec_witness :
    create_job ⟨[("a1", agentA)], [], []⟩ none none (some "zz") [] false none "j9" 3
      = .error ⟨404, "agent not found"⟩ :=
  (C6_create_job_spec ⟨[("a1", agentA)], [], []⟩ none none (some "zz") [] false
    none "j9" 3 rfl).1 (by intro aid h; cases h; rfl)

/-! ### C3 -/

/-- Fixture: a pending job of `agentA` referencing env token `"env_x"`. -/
def jobEnvX : Job :=
  { job_id := "j4", agent_id := "a1", args := [], is_spa := false,
    env_token := some "env_x", status := "pending", output := none,
    created := 0, updated := 0 }

/-- C3, counterexample: the claimed "if" direction fails.  In this state a
job with `agent_id = "a1"`, `status = "pending"`, `env_token = "env_x"`
exists (the `referencesEnv` scan succeeds), yet `download_env` by the
owning agent fails with 404 because no bundle with that token is stored. -/
theorem C3_download_env_iff_counterexample :
    (([("j4", jobEnvX)] : List (String × Job)).any (referencesEnv "a1" "env_x")
        = true) ∧
    download_env ⟨[("a1", agentA)], [("j4", jobEnvX)], []⟩ "env_x" (some "t1")
      = .error ⟨404, "env token not found"⟩ := ⟨rfl, rfl⟩

/-- C3, amended: for an authenticated agent, `download_env(T)` succeeds
iff a job with the caller's `agent_id`, `status = "pending"` and
`env_token = T` exists AND a bundle with token T is stored; in particular
it fails once that job's status is no longer `"pending"`, even when no
other job references T. -/
theorem C3_download_env_iff (s : OrchState) (tok aid T : String)
    (htok : tok ≠ "") (hfind : findAgentByToken s.agents tok = some aid) :
    (∃ v, download_env s T (some tok) = .ok v) ↔
      ((∃ p ∈ s.jobs, p.2.agent_id = aid ∧ p.2.status = "pending" ∧
          p.2.env_token = some T) ∧ (dlookup s.envs T).isSome = true) := by
  have hany : (s.jobs.any (referencesEnv aid T) = true) ↔
      (∃ p ∈ s.jobs, p.2.agent_id = aid ∧ p.2.status = "pending" ∧
        p.2.env_token = some T) := by
    simp [List.any_eq_true, referencesEnv, and_assoc]
  simp only [download_env, if_neg htok, hfind]
  by_cases h1 : s.jobs.any (referencesEnv aid T) = true
  · rw [if_pos h1]
    cases he : dlookup s.envs T with
    | none => simp [he, hany.mp h1]
    | some v => simp [he, hany.mp h1]
  · rw [if_neg h1]
    constructor
    · rintro ⟨v, hv⟩
      cases hv
    · rintro ⟨hex, hsome⟩
      exact absurd (hany.mpr hex) h1

/-- C3, witness: with the bundle stored and the pending job present, the
download succeeds; once the job is reported (status `"done"`), it fails. -/
theorem C3_download_env_iff_witness :
    (∃ v, download_env ⟨[("a1", agentA)], [("j4", jobEnvX)],
        [("env_x", JsonVal.str "payload")]⟩ "env_x" (some "t1") = .ok v) ∧
    ¬(∃ v, download_env ⟨[("a1", agentA)],
        [("j4", reportUpdate "done" "ok" 5 jobEnvX)],
        [("env_x", JsonVal.str "payload")]⟩ "env_x" (some "t1") = .ok v) := by
  constructor
  · refine (C3_download_env_iff ⟨[("a1", agentA)], [("j4", jobEnvX)],
        [("env_x", JsonVal.str "payload")]⟩ "t1" "a1" "env_x" (by decide) rfl).mpr ?_
    exact ⟨⟨("j4", jobEnvX), List.mem_singleton.mpr rfl, rfl, rfl, rfl⟩, rfl⟩
  · intro hok
    have h := (C3_download_env_iff ⟨[("a1", agentA)],
        [("j4", reportUpdate "done" "ok" 5 jobEnvX)],
        [("env_x", JsonVal.str "payload")]⟩ "t1" "a1" "env_x"
        (by decide) rfl).mp hok
    obtain ⟨⟨p, hp, hpa, hps, hpe⟩, henv⟩ := h
    rw [List.mem_singleton] at hp
    rw [hp] at hps
    exact absurd hps (by decide)

/-! ### C10 -/

/-- C10: in `download_env` the derived-authorization check precedes the
bundle-existence check: when the authenticated caller has no pending job
referencing the token, the call fails 403 whatever bundles are stored;
and a 404 result can only arise when a qualifying pending job exists but
no bundle with that token is stored. -/
theorem C10_download_env_auth_before_existence (s : OrchState)
    (tok aid T : String)
    (htok : tok ≠ "") (hfind : findAgentByToken s.agents tok = some aid) :
    (s.jobs.any (referencesEnv aid T) = false →
        download_env s T (some tok)
          = .error ⟨403, "no job for this agent references this env token"⟩) ∧
    (download_env s T (some tok) = .error ⟨404, "env token not found"⟩ →
        s.jobs.any (referencesEnv aid T) = true ∧ dlookup s.envs T = none) := by
  simp only [download_env, if_neg htok, hfind]
  constructor
  · intro h1
    rw [if_neg (by simp [h1])]
  · intro h404
    by_cases h1 : s.jobs.any (referencesEnv aid T) = true
    · rw [if_pos h1] at h404
      refine ⟨h1, ?_⟩
      cases he : dlookup s.envs T with
      | none => rfl
      | some v => rw [he] at h404; cases h404
    · rw [if_neg h1] at h404
      cases h404

/-- C10, witness: with no jobs at all and no stored bundle, the call fails
with the 403 derived-authorization error, not 404. -/
theorem C10_download_env_auth_before_existence_witness :
    download_env ⟨[("a1", agentA)], [], []⟩ "env_x" (some "t1")
      = .error ⟨403, "no job for this agent references this env token"⟩ :=
  (C10_download_env_auth_before_existence ⟨[("a1", agentA)], [], []⟩
    "t1" "a1" "env_x" (by decide) rfl).1 rfl

/-! ### C7 -/

/-- Content of a JSON document on disk as `read_json` (lines 22-36) can
encounter it: the file may be missing, present and parseable into a
document of type α, or present but malformed, in which case `json.load`
raises and the handler re-raises a `RuntimeError`. -/
inductive DiskFile (α : Type) where
  | absent
  | parsed (doc : α)
  | malformed (err : String)

/-- `read_json` (lines 22-36): returns `{}` when the file is missing, the
parsed document when it parses, and propagates a fatal read error naming
the path otherwise. -/
def read_json {α : Type} (path : String) (file : DiskFile α) (emptyDoc : α) :
    Except String α :=
  match file with
  | .absent => .ok emptyDoc
  | .parsed d => .ok d
  | .malformed e => .error ("failed to read json " ++ path ++ ": " ++ e)

/-- C7: loading an absent document yields the empty mapping, while loading
a present-but-malformed document evaluates to the propagated fatal read
error — an `.error`, never an `.ok`, in particular not the empty
mapping. -/
theorem C7_read_json_absent_vs_malformed (path e : String) :
    read_json path DiskFile.absent ([] : List (String × JsonVal)) = .ok [] ∧
    read_json path (DiskFile.malformed e) ([] : List (String × JsonVal))
      = .error ("failed to read json " ++ path ++ ": " ++ e) :=
  ⟨rfl, rfl⟩

/-! ### C8 -/

/-- Fixture: a pending job of `agentA` referencing env token
`"env_ffff"`. -/
def jobEnvFF : Job :=
  { job_id := "j5", agent_id := "a1", args := [], is_spa := false,
    env_token := some "env_ffff", status := "pending", output := none,
    created := 0, updated := 0 }

/-- C8: round trip.  If `upload_env` of payload P (raw JSON body branch)
returns token T with new state s', then a `download_env(T)` in s' by an
authenticated agent that has a pending job referencing T returns exactly
P (payloads are stored and returned as parsed JSON, so "deep-equal" is
equality of `JsonVal`). -/
theorem C8_upload_download_roundtrip (s s' : OrchState)
    (cfg hdr : Option String) (P : JsonVal) (fresh T tok aid : String)
    (hadmin : require_admin cfg hdr = .ok ())
    (hup : upload_env_file s cfg hdr none (some P) fresh = .ok (s', T))
    (htok : tok ≠ "") (hfind : findAgentByToken s'.agents tok = some aid)
    (hany : s'.jobs.any (referencesEnv aid T) = true) :
    download_env s' T (some tok) = .ok P := by
  simp only [upload_env_file, hadmin] at hup
  simp only [Except.ok.injEq, Prod.mk.injEq] at hup
  obtain ⟨hs', hT⟩ := hup
  subst hs'
  subst hT
  simp only [download_env, if_neg htok, hfind, hany, if_pos]
  rw [dlookup_dictSet_self]

/-- C8, witness: uploading the payload `"s3cret"` with uuid hex `"ffff"`
and downloading it as `agentA`, whose job `"j5"` references
`"env_ffff"`, returns the payload. -/
theorem C8_upload_download_roundtrip_witness :
    download_env ⟨[("a1", agentA)], [("j5", jobEnvFF)],
        [("env_ffff", JsonVal.str "s3cret")]⟩ "env_ffff" (some "t1")
      = .ok (JsonVal.str "s3cret") :=
  C8_upload_download_roundtrip ⟨[("a1", agentA)], [("j5", jobEnvFF)], []⟩
    ⟨[("a1", agentA)], [("j5", jobEnvFF)], [("env_ffff", JsonVal.str "s3cret")]⟩
    none none (JsonVal.str "s3cret") "ffff" "env_ffff" "t1" "a1"
    rfl rfl (by decide) rfl rfl

/-! ### C2

`read_json` takes `_fs_lock` only for the duration of the read (lines
28-36) and `write_json` only for the duration of the write (lines 45-52);
the in-memory mutation in `report` (lines 305-310) happens with no lock
held.  To examine the claim we split one `report` call into its
lock-atomic store operations and interleave several calls explicitly. -/

/-- The parameters of one in-flight `report` call. -/
structure RCall where
  tok : Option String
  job_id : String
  status : String
  output : String
  now : Nat
deriving DecidableEq, Repr

/-- The jobs snapshot a `report` call writes back: its own job mutated in
place, every other entry exactly as the snapshot read them. -/
def snapshotWrite (c : RCall) (snapshot : List (String × Job)) :
    List (String × Job) :=
  dictModify snapshot c.job_id (reportUpdate c.status c.output c.now)

/-- Program counter of an in-flight `report` call, between lock-atomic
store operations: after `read_json(AGENTS_FILE)` plus the token scan the
call is `authed`; after `read_json(JOBS_FILE)` plus the local checks and
the in-memory mutation of the snapshot it is `toWrite` with the full
document it will write; `write_json(JOBS_FILE)` finishes it. -/
inductive RPhase where
  | start
  | authed (agent_id : String)
  | toWrite (newJobs : List (String × Job))
  | finished (res : Except HErr Unit)

/-- One in-flight `report` call: its request and where it stands. -/
structure RThread where
  call : RCall
  phase : RPhase

/-- One lock-atomic step of an in-flight `report` call against the shared
store.  The checks and the snapshot mutation touch only thread-local data,
so they are attached to the store operation that precedes them; a
finished thread steps to itself. -/
def rstep (sh : OrchState) (t : RThread) : OrchState × RThread :=
  match t.phase with
  | .start =>
    match t.call.tok with
    | none =>
      (sh, { t with phase := .finished (.error ⟨403, "missing agent token"⟩) })
    | some tok =>
      if tok = "" then
        (sh, { t with phase := .finished (.error ⟨403, "missing agent token"⟩) })
      else
        match findAgentByToken sh.agents tok with
        | none =>
          (sh, { t with phase := .finished (.error ⟨403, "invalid agent token"⟩) })
        | some aid => (sh, { t with phase := .authed aid })
  | .authed aid =>
    match dlookup sh.jobs t.call.job_id with
    | none => (sh, { t with phase := .finished (.error ⟨404, "job not found"⟩) })
    | some job =>
      if job.agent_id ≠ aid then
        (sh, { t with phase := .finished (.error ⟨403, "job does not belong to this agent"⟩) })
      else
        (sh, { t with phase := .toWrite (snapshotWrite t.call sh.jobs) })
  | .toWrite nj => ({ sh with jobs := nj }, { t with phase := .finished (.ok ()) })
  | .finished _ => (sh, t)

/-- Run in-flight `report` calls under an explicit interleaving: `sched`
names, in order, which thread performs its next lock-atomic step. -/
def runSched : OrchState → List RThread → List Nat → OrchState × List RThread
  | sh, ts, [] => (sh, ts)
  | sh, ts, i :: rest =>
    match ts.get? i with
    | none => runSched sh ts rest
    | some t =>
      let r := rstep sh t
      runSched r.1 (ts.set i r.2) rest

/-- Fixture: two concurrent `report` calls by `agentA` on its two distinct
pending jobs. -/
def twoReports : List RThread :=
  [{ call := { tok := some "t1", job_id := "j1", status := "done",
               output := "ok1", now := 5 }, phase := .start },
   { call := { tok := some "t1", job_id := "j2", status := "done",
               output := "ok2", now := 5 }, phase := .start }]

/-- C2, counterexample: the lock is not held across the read-modify-write
cycle, so the interleaving "thread 0 reads agents and jobs, thread 1 reads
agents and jobs, thread 0 writes, thread 1 writes" is possible.  Both
calls return ok, yet thread 1's write was computed from a snapshot in
which job `"j1"` was still pending, so thread 0's update is overwritten:
`"j1"` ends `"pending"`, not `"done"` — its final record does not reflect
its own call. -/
theorem C2_lost_update_counterexample :
    ((runSched ⟨[("a1", agentA)], [("j1", jobOne), ("j2", jobTwo)], []⟩
        twoReports [0, 0, 1, 1, 0, 1]).2.map RThread.phase
      = [.finished (.ok ()), .finished (.ok ())]) ∧
    ((runSched ⟨[("a1", agentA)], [("j1", jobOne), ("j2", jobTwo)], []⟩
        twoReports [0, 0, 1, 1, 0, 1]).1.jobs.map (fun p => (p.1, p.2.status))
      = [("j1", "pending"), ("j2", "done")]) := ⟨rfl, rfl⟩

/-- The jobs document after one `report` overwrite, for stating the
sequential composition below. -/
def reportedJobs (jobs : List (String × Job)) (j st o : String) (n : Nat) :
    List (String × Job) :=
  dictModify jobs j (reportUpdate st o n)

/-- C2, amended: the process-wide lock is held only around each individual
read and each individual write, not across the read-modify-write cycle,
so interleaved `report` calls can lose updates (see the counterexample).
When the calls do not interleave, they compose: two sequential `report`
calls on distinct job ids owned by the authenticated caller both succeed
and each job's final record reflects its own call, neither overwriting
the other's. -/
theorem C2_sequential_reports_compose (s : OrchState)
    (tok j1 j2 st1 st2 o1 o2 aid : String) (n1 n2 : Nat) (job1 job2 : Job)
    (htok : tok ≠ "") (hfind : findAgentByToken s.agents tok = some aid)
    (h1 : dlookup s.jobs j1 = some job1) (ho1 : job1.agent_id = aid)
    (h2 : dlookup s.jobs j2 = some job2) (ho2 : job2.agent_id = aid)
    (hne : j1 ≠ j2) :
    report s (some tok) j1 st1 o1 n1
        = .ok { s with jobs := reportedJobs s.jobs j1 st1 o1 n1 } ∧
    report { s with jobs := reportedJobs s.jobs j1 st1 o1 n1 } (some tok) j2 st2 o2 n2
        = .ok { s with jobs := reportedJobs (reportedJobs s.jobs j1 st1 o1 n1) j2 st2 o2 n2 } ∧
    dlookup (reportedJobs (reportedJobs s.jobs j1 st1 o1 n1) j2 st2 o2 n2) j1
        = some (reportUpdate st1 o1 n1 job1) ∧
    dlookup (reportedJobs (reportedJobs s.jobs j1 st1 o1 n1) j2 st2 o2 n2) j2
        = some (reportUpdate st2 o2 n2 job2) := by
  have hl2 : dlookup (dictModify s.jobs j1 (reportUpdate st1 o1 n1)) j2 = some job2 := by
    rw [dlookup_dictModify_ne _ _ _ _ (Ne.symm hne)]
    exact h2
  refine ⟨?_, ?_, ?_, ?_⟩
  · simp [report, reportedJobs, htok, hfind, h1, ho1]
  · simp [report, reportedJobs, htok, hfind, hl2, ho2]
  · rw [reportedJobs, dlookup_dictModify_ne _ _ _ _ hne,
      reportedJobs, dlookup_dictModify_self, h1]
    rfl
  · simp only [reportedJobs]
    rw [dlookup_dictModify_self, hl2]
    rfl

/-- C2, witness: in the two-job fixture state, the sequential composition
of the two reports keeps job `"j1"`'s own update in the final document. -/
theorem C2_sequential_reports_compose_witness :
    dlookup (reportedJobs (reportedJobs [("j1", jobOne), ("j2", jobTwo)]
        "j1" "done" "ok1" 5) "j2" "failed" "ok2" 6) "j1"
      = some (reportUpdate "done" "ok1" 5 jobOne) :=
  (C2_sequential_reports_compose
    ⟨[("a1", agentA)], [("j1", jobOne), ("j2", jobTwo)], []⟩
    "t1" "j1" "j2" "done" "failed" "ok1" "ok2" "a1" 5 6 jobOne jobTwo
    (by decide) rfl rfl rfl rfl rfl (by decide)).2.2.1
